import Mathlib

/-!
Verification of the project-search orchestration core in
`crates/search/src/project_search.rs`.

The embedding below translates the Rust source into Lean:

* Editor text fields are lists of characters (`Str`), so that the
  splitting and trimming done by `load_glob_set` is fully executable.
* Document paths are represented by an ordered identifier
  (`Option Nat`: `buffer.file().map(|f| f.path())`, where `none` models a
  buffer without a file).  Only the ordering of paths matters to the code
  under verification.
* A match range (`editor::Anchor` range) is represented by its position,
  a `Nat`; the code under verification never inspects ranges, it only
  stores, orders and forwards them.
* Third-party compilers are parameters: `cg : Str → Option GlobMatcher`
  stands for `Glob::new(s)?.compile_matcher()` (globset crate) and
  `cr : Str → Bool` stands for the success of regex compilation inside
  `SearchQuery::regex` (project crate).
* The asynchronous lifecycle of `ProjectSearch::search` /
  `ProjectSearch::semantic_search` is embedded as a small-step system
  (`stepFn`): the synchronous part of an issuance runs in one step, and
  the spawned task advances through explicit resume points (the awaits in
  the source).  Replacing `pending_search` drops the previous `gpui::Task`,
  which cancels it; the step system reflects this by removing the old task
  when a new search is issued.  A ghost `log` records, for each append to
  `match_ranges` / the excerpt multibuffer, the generation of the task
  that performed it.
-/

namespace ZedProjectSearch

/-- Contents of a single-line editor field, as a list of characters. -/
abbrev Str := List Char

/-- A compiled glob matcher (`globset::GlobMatcher`), identified by the
pattern it was compiled from.  Compilation itself is a parameter. -/
abbrev GlobMatcher := Str

/-- Modelled from the spec: `project::search::SearchQuery` (project crate,
not under `src/`) — a validated query, either plain text or a successfully
compiled regex, with whole-word and case-sensitivity flags and compiled
include/exclude path matchers. -/
inductive SearchQuery where
  | text (query : Str) (whole_word : Bool) (case_sensitive : Bool)
      (files_to_include : List GlobMatcher) (files_to_exclude : List GlobMatcher)
  | regex (query : Str) (whole_word : Bool) (case_sensitive : Bool)
      (files_to_include : List GlobMatcher) (files_to_exclude : List GlobMatcher)
deriving DecidableEq

/-- The three search options toggled from the search bar
(`SearchOptions` bitflags in the search crate). -/
structure SearchOptions where
  case_sensitive : Bool
  whole_word : Bool
  regex : Bool
deriving DecidableEq

/-- The input panels an error can be reported against (`InputPanel`). -/
inductive InputPanel where
  | Query
  | Exclude
  | Include
deriving DecidableEq

/-- State of `struct ProjectSearch` that the claims are about.
`pending_search` is `pending_search.is_some()` in the source (the task
handle itself lives in the step system below); `excerpts` is the sequence
of excerpted ranges currently materialised in the excerpts multibuffer. -/
structure ProjectSearch where
  pending_search : Bool
  match_ranges : List Nat
  active_query : Option SearchQuery
  search_id : Nat
  excerpts : List Nat
deriving DecidableEq

/-- `ProjectSearch::new`: fresh model with generation 0 and no results. -/
def ProjectSearch.new : ProjectSearch :=
  { pending_search := false
    match_ranges := []
    active_query := none
    search_id := 0
    excerpts := [] }

/-- `struct SemanticSearchState` (the `_progress_task` handle is dropped:
only the counters are observable). -/
structure SemanticSearchState where
  file_count : Nat
  outstanding_file_count : Nat
deriving DecidableEq

/-- `workspace::searchable::Direction` for match navigation. -/
inductive Direction where
  | prev
  | next
deriving DecidableEq

/-! ## Glob list compilation -/

/-- `str::split(',')` on a character list: splits into the (possibly
empty) segments between commas. -/
def splitOnComma : Str → List Str
  | [] => [[]]
  | c :: cs =>
    if c = ',' then [] :: splitOnComma cs
    else
      match splitOnComma cs with
      | [] => [[c]]
      | s :: ss => (c :: s) :: ss

/-- `str::trim`: removes leading and trailing whitespace. -/
def trimChars (s : Str) : Str :=
  ((s.dropWhile Char.isWhitespace).reverse.dropWhile Char.isWhitespace).reverse

/-- The segments `load_glob_set` compiles: split on commas, trim each
segment, drop empty segments. -/
def globSegments (text : Str) : List Str :=
  ((splitOnComma text).map trimChars).filter (fun s => !s.isEmpty)

/-- `Iterator::collect::<Result<Vec<_>>>`: all results, or the first
failure (embedded over `Option`). -/
def collectSome (f : α → Option β) : List α → Option (List β)
  | [] => some []
  | a :: as =>
    match f a, collectSome f as with
    | some b, some bs => some (b :: bs)
    | _, _ => none

/-- `ProjectSearchView::load_glob_set`, parameterised by the glob
compiler `cg` (`Glob::new(s)?.compile_matcher()`). -/
def load_glob_set (cg : Str → Option GlobMatcher) (text : Str) :
    Option (List GlobMatcher) :=
  collectSome cg (globSegments text)

/-! ## Stable sort by document path

`matches.sort_by_key(|(buffer, _)| buffer.read(cx).file().map(|file| file.path()))`
is a stable sort whose key is only the document path.  A stable sort by a
total transitive comparison is unique as a function, so it is embedded as
stable insertion sort over the path comparison `keyLe`. -/

/-- Ordering of sort keys `Option Path`: `None < Some p`, paths by their
own order (`Ord for Option<T>` in Rust). -/
def keyLe : Option Nat → Option Nat → Bool
  | none, _ => true
  | some _, none => false
  | some a, some b => a ≤ b

/-- Insert an element into a list, before the first element it compares
`le` to (so equal-key elements keep their original relative order). -/
def insortBy (le : α → α → Bool) (a : α) : List α → List α
  | [] => [a]
  | b :: bs => if le a b then a :: b :: bs else b :: insortBy le a bs

/-- Stable insertion sort. -/
def sortStable (le : α → α → Bool) : List α → List α
  | [] => []
  | x :: xs => insortBy le x (sortStable le xs)

/-- One buffer's worth of raw engine results: the buffer's path and the
positions of its matched ranges, in the order the engine produced them. -/
abbrev BufferMatches := Option Nat × List Nat

/-- The sort performed on raw results in `ProjectSearch::search`:
stable, keyed by the document path only. -/
def sort_by_path (ms : List BufferMatches) : List BufferMatches :=
  sortStable (fun a b => keyLe a.1 b.1) ms

/-- Modelled from the spec: the emission order of
`MultiBuffer::stream_excerpts_with_context_lines` (editor crate, not under
`src/`) — it walks the given groups in order and emits each group's match
ranges in the given order, so the streamed sequence is the flattening of
its input. -/
def streamExcerpts (ms : List BufferMatches) : List Nat :=
  ms.flatMap (fun g => g.2)

/-- The forwarded (path, position) sequence, used to state ordering
claims about what is handed to excerpt streaming. -/
def flattenMatches (ms : List BufferMatches) : List (Option Nat × Nat) :=
  ms.flatMap (fun g => g.2.map (fun r => (g.1, r)))

/-- Whether a (path, position) sequence is sorted by document path and
then by position within the document — the ordering the spec claims for
the forwarded matches (comparison definition, from the spec wording). -/
def sortedByPathPos : List (Option Nat × Nat) → Bool
  | [] => true
  | [_] => true
  | a :: b :: rest =>
    (keyLe a.1 b.1 && (a.1 ≠ b.1 || a.2 ≤ b.2)) && sortedByPathPos (b :: rest)

/-! ## The search lifecycle as a step system

The async block spawned by `ProjectSearch::search` has these resume
points: the `search.await` on the engine (which may fail: `log_err()?`
returns early), the loop draining the excerpt stream, and the final
cleanup that takes `pending_search`.  `ProjectSearch::semantic_search`
has the same shape but neither sorts the results, re-clears
`match_ranges`, nor records `active_query`. -/

/-- Where a spawned search task currently is.  `awaitingText` /
`awaitingSemantic` hold the (not yet delivered) outcome of the engine
call: `none` is an engine error.  `streaming q` holds the excerpt ranges
not yet drained from the stream. -/
inductive TaskPhase where
  | awaitingText (result : Option (List BufferMatches))
  | awaitingSemantic (result : Option (List (Option Nat × Nat)))
  | streaming (queue : List Nat)
deriving DecidableEq

/-- A live spawned task: the generation (`search_id`) it was issued
under, and its phase.  It is dropped — hence cancelled — when a new
search replaces `pending_search`. -/
structure PendingTask where
  gen : Nat
  phase : TaskPhase
deriving DecidableEq

/-- Orchestrator state: the `ProjectSearch` model, the live task (at
most one, since issuing replaces and so cancels the previous one), and a
ghost audit log of `(generation, range)` for every append to
`match_ranges` / the excerpt multibuffer. -/
structure OrchState where
  ps : ProjectSearch
  task : Option PendingTask
  log : List (Nat × Nat)
deriving DecidableEq

/-- Initial orchestrator state (`ProjectSearch::new`, nothing spawned). -/
def initState : OrchState :=
  { ps := ProjectSearch.new, task := none, log := [] }

/-- Scheduler events: the two issuances (carrying the outcome the engine
call will eventually produce) and the three kinds of task resumption. -/
inductive Evt where
  | issue (q : SearchQuery) (engine : Option (List BufferMatches))
  | issueSemantic (query : Str) (engine : Option (List (Option Nat × Nat)))
  | engineArrive
  | deliver
  | complete
deriving DecidableEq

/-- Whether an event is one of the two search issuances. -/
def Evt.isIssue : Evt → Bool
  | .issue _ _ => true
  | .issueSemantic _ _ => true
  | _ => false

/-- Synchronous part of `ProjectSearch::search`: dispatch the engine
call, bump `search_id`, record the query, clear `match_ranges`, replace
`pending_search` with the newly spawned task.  The excerpts multibuffer
is not touched here. -/
def ProjectSearch.search (q : SearchQuery) (engine : Option (List BufferMatches))
    (ps : ProjectSearch) : ProjectSearch × PendingTask :=
  ({ ps with
      search_id := ps.search_id + 1
      active_query := some q
      match_ranges := []
      pending_search := true },
   { gen := ps.search_id + 1, phase := .awaitingText engine })

/-- Synchronous part of `ProjectSearch::semantic_search`: bump
`search_id`, clear `match_ranges`, replace `pending_search`.  Neither
`active_query` nor the excerpts multibuffer is touched here. -/
def ProjectSearch.semantic_search (engine : Option (List (Option Nat × Nat)))
    (ps : ProjectSearch) : ProjectSearch × PendingTask :=
  ({ ps with
      search_id := ps.search_id + 1
      match_ranges := []
      pending_search := true },
   { gen := ps.search_id + 1, phase := .awaitingSemantic engine })

/-- One scheduler step.  `none` means the event is not enabled in this
state. -/
def stepFn (s : OrchState) : Evt → Option OrchState
  | .issue q engine =>
    -- assigning to `pending_search` drops (cancels) the previous task
    let (ps, task) := ProjectSearch.search q engine s.ps
    some { ps := ps, task := some task, log := s.log }
  | .issueSemantic _query engine =>
    let (ps, task) := ProjectSearch.semantic_search engine s.ps
    some { ps := ps, task := some task, log := s.log }
  | .engineArrive =>
    match s.task with
    | some { gen := _, phase := .awaitingText none } =>
      -- `search.await.log_err()?`: logged, early return; the cleanup that
      -- takes `pending_search` never runs
      some { s with task := none }
    | some { gen := g, phase := .awaitingText (some ms) } =>
      -- `this.match_ranges.clear(); matches.sort_by_key(path); excerpts.clear();
      --  excerpts.stream_excerpts_with_context_lines(matches, 1, cx)`
      some { ps := { s.ps with match_ranges := [], excerpts := [] }
             task := some { gen := g, phase := .streaming (streamExcerpts (sort_by_path ms)) }
             log := s.log }
    | some { gen := _, phase := .awaitingSemantic none } =>
      some { s with task := none }
    | some { gen := g, phase := .awaitingSemantic (some results) } =>
      -- `excerpts.clear();` then each result contributes the single range
      -- `result.range.start..result.range.start`, in engine order (no sort,
      -- and `match_ranges` is not re-cleared on this path)
      some { ps := { s.ps with excerpts := [] }
             task := some { gen := g, phase := .streaming (results.map (fun r => r.2)) }
             log := s.log }
    | _ => none
  | .deliver =>
    match s.task with
    | some { gen := g, phase := .streaming (r :: rest) } =>
      -- `this.match_ranges.push(match_range)` for the next streamed excerpt
      some { ps := { s.ps with
                      match_ranges := s.ps.match_ranges ++ [r]
                      excerpts := s.ps.excerpts ++ [r] }
             task := some { gen := g, phase := .streaming rest }
             log := s.log ++ [(g, r)] }
    | _ => none
  | .complete =>
    match s.task with
    | some { gen := _, phase := .streaming [] } =>
      -- stream finished: `this.pending_search.take()`
      some { ps := { s.ps with pending_search := false }, task := none, log := s.log }
    | _ => none

/-- Run a sequence of scheduler events. -/
def runTrace (s : OrchState) : List Evt → Option OrchState
  | [] => some s
  | e :: es =>
    match stepFn s e with
    | some s1 => runTrace s1 es
    | none => none

/-! ## The view (`ProjectSearchView`) -/

/-- State of `struct ProjectSearchView` that the claims are about.  The
three editors are represented by their text; `results_selection` is the
index of the match currently selected in the results editor (what
`select_ranges` was last given) and `cursor` the resulting cursor
position, used when the active match index is recomputed. -/
structure ProjectSearchView where
  model : ProjectSearch
  query_editor : Str
  included_files_editor : Str
  excluded_files_editor : Str
  semantic : Option SemanticSearchState
  search_options : SearchOptions
  panels_with_errors : Finset InputPanel
  active_match_index : Option Nat
  search_id : Nat
  results_selection : Option Nat
  cursor : Nat
deriving DecidableEq

/-- Modelled from the spec: `editor::items::active_match_index` (editor
crate, not under `src/`) — the match whose range contains or most closely
follows the cursor: the smallest index `i` with `matches[i].start ≥
cursor`, wrapping to index 0 when none does; `none` when there are no
matches. -/
def active_match_index_impl (ms : List Nat) (cursor : Nat) : Option Nat :=
  if ms.isEmpty then none
  else
    match ms.findIdx? (fun m => cursor ≤ m) with
    | some i => some i
    | none => some 0

/-- `ProjectSearchView::update_match_index`: recompute the active match
index from the current cursor. -/
def ProjectSearchView.update_match_index (v : ProjectSearchView) : ProjectSearchView :=
  { v with active_match_index := active_match_index_impl v.model.match_ranges v.cursor }

/-- Modelled from the spec: `Editor::match_index_for_direction` (editor
crate, not under `src/`, called with `count = 1`) — next is
`(i + 1) mod n`, prev is `(i - 1 + n) mod n`. -/
def match_index_for_direction (n : Nat) (index : Nat) : Direction → Nat
  | .next => (index + 1) % n
  | .prev => (index + n - 1) % n

/-- `ProjectSearchView::select_match`: with no active index this is a
no-op; otherwise select the match at `match_index_for_direction` in the
results editor (placing the cursor on it).  The active index itself is
recomputed afterwards by `update_match_index`, triggered by the
`SelectionsChanged` editor event the selection causes. -/
def ProjectSearchView.select_match (direction : Direction) (v : ProjectSearchView) :
    ProjectSearchView :=
  match v.active_match_index with
  | none => v
  | some index =>
    let match_ranges := v.model.match_ranges
    let new_index := match_index_for_direction match_ranges.length index direction
    { v with
        results_selection := some new_index
        cursor := match_ranges.getD new_index 0 }

/-- `ProjectSearchView::select_match` followed by the
`SelectionsChanged`-triggered `update_match_index` (the subscription set
up in `ProjectSearchView::new`).  A no-op `select_match` raises no event,
so nothing is recomputed. -/
def ProjectSearchView.select_match_cycle (direction : Direction)
    (v : ProjectSearchView) : ProjectSearchView :=
  match v.active_match_index with
  | none => v
  | some _ => (v.select_match direction).update_match_index

/-- `ProjectSearchView::get_included_and_excluded_globsets`: compile the
include list, then the exclude list; the first failure flags its own
panel and returns early. -/
def ProjectSearchView.get_included_and_excluded_globsets
    (cg : Str → Option GlobMatcher) (v : ProjectSearchView) :
    Option (List GlobMatcher × List GlobMatcher) × ProjectSearchView :=
  match load_glob_set cg v.included_files_editor with
  | none =>
    (none, { v with panels_with_errors := insert InputPanel.Include v.panels_with_errors })
  | some included_files =>
    let v := { v with panels_with_errors := v.panels_with_errors.erase InputPanel.Include }
    match load_glob_set cg v.excluded_files_editor with
    | none =>
      (none, { v with panels_with_errors := insert InputPanel.Exclude v.panels_with_errors })
    | some excluded_files =>
      let v := { v with panels_with_errors := v.panels_with_errors.erase InputPanel.Exclude }
      (some (included_files, excluded_files), v)

/-- `ProjectSearchView::build_search_query`: compile the include list,
then the exclude list (each failure flags its own panel and returns
early), then — in regex mode — compile the query text, flagging the
`Query` panel on failure and clearing that flag on success.  In text mode
the query always builds and the `Query` flag is left as it is. -/
def ProjectSearchView.build_search_query (cg : Str → Option GlobMatcher)
    (cr : Str → Bool) (v : ProjectSearchView) :
    Option SearchQuery × ProjectSearchView :=
  let text := v.query_editor
  match load_glob_set cg v.included_files_editor with
  | none =>
    (none, { v with panels_with_errors := insert InputPanel.Include v.panels_with_errors })
  | some included_files =>
    let v := { v with panels_with_errors := v.panels_with_errors.erase InputPanel.Include }
    match load_glob_set cg v.excluded_files_editor with
    | none =>
      (none, { v with panels_with_errors := insert InputPanel.Exclude v.panels_with_errors })
    | some excluded_files =>
      let v := { v with panels_with_errors := v.panels_with_errors.erase InputPanel.Exclude }
      if v.search_options.regex then
        if cr text then
          (some (SearchQuery.regex text v.search_options.whole_word
              v.search_options.case_sensitive included_files excluded_files),
           { v with panels_with_errors := v.panels_with_errors.erase InputPanel.Query })
        else
          (none, { v with panels_with_errors := insert InputPanel.Query v.panels_with_errors })
      else
        (some (SearchQuery.text text v.search_options.whole_word
            v.search_options.case_sensitive included_files excluded_files),
         v)

/-- `ProjectSearchView::search`.  In semantic mode with indexing still
outstanding this returns immediately.  Otherwise it validates the inputs
and, on success, dispatches `ProjectSearch::semantic_search` or
`ProjectSearch::search` on the model.  The returned task is the one
spawned by the dispatch (`none`: no engine call was made and nothing was
spawned).  `tm` / `sm` are the outcomes the text / semantic engine call
would eventually produce. -/
def ProjectSearchView.search (cg : Str → Option GlobMatcher) (cr : Str → Bool)
    (tm : Option (List BufferMatches)) (sm : Option (List (Option Nat × Nat)))
    (v : ProjectSearchView) : ProjectSearchView × Option PendingTask :=
  match v.semantic with
  | some semantic =>
    if semantic.outstanding_file_count > 0 then (v, none)
    else
      match v.get_included_and_excluded_globsets cg with
      | (some _globs, v1) =>
        let (ps, task) := ProjectSearch.semantic_search sm v1.model
        ({ v1 with model := ps }, some task)
      | (none, v1) => (v1, none)
  | none =>
    match v.build_search_query cg cr with
    | (some query, v1) =>
      let (ps, task) := ProjectSearch.search query tm v1.model
      ({ v1 with model := ps }, some task)
    | (none, v1) => (v1, none)

/-- `ProjectSearchView::model_changed`, with the returned flag recording
whether the results-editor selection was moved (and autoscrolled) to the
first match.  The selection moves only when the match list is non-empty
and the view's recorded `search_id` differs from the model's. -/
def ProjectSearchView.model_changed (v : ProjectSearchView) :
    ProjectSearchView × Bool :=
  let match_ranges := v.model.match_ranges
  if match_ranges.isEmpty then
    ({ v with active_match_index := none }, false)
  else
    let v1 := { v with active_match_index := some 0 }
    let v2 := v1.update_match_index
    let prev_search_id := v2.search_id
    let v3 := { v2 with search_id := v2.model.search_id }
    let is_new_search := decide (v3.search_id ≠ prev_search_id)
    let v4 :=
      if is_new_search then
        { v3 with
            results_selection := some 0
            cursor := match_ranges.headD 0 }
      else v3
    (v4, is_new_search)

/-- A run of `model_changed` notifications within one generation: each
element of `updates` is the model's `match_ranges` at that notification
(the model's `search_id` does not change), and the second component
counts how often the selection was moved. -/
def model_changed_run (v : ProjectSearchView) : List (List Nat) → ProjectSearchView × Nat
  | [] => (v, 0)
  | u :: us =>
    let vNext := { v with model := { v.model with match_ranges := u } }
    let step := vNext.model_changed
    let rest := model_changed_run step.1 us
    (rest.1, (if step.2 then 1 else 0) + rest.2)

/-! ## Concrete data for counterexamples and witnesses -/

/-- A sample glob compiler for the concrete instances below: it rejects
exactly the patterns opening a character class (a leading `[`), which is
how globset treats the unclosed class in the example inputs. -/
def sampleGlobCompiler : Str → Option GlobMatcher :=
  fun s => if s.head? = some '[' then none else some s

/-- A concrete plain-text query used by the concrete traces. -/
def demoQuery : SearchQuery := SearchQuery.text ['a'] false false [] []

/-- A second concrete query, for superseding searches in the traces. -/
def demoQueryB : SearchQuery := SearchQuery.text ['b'] false false [] []

/-- Orchestrator state with a previous generation already materialised:
generation 3, no live task, one excerpted range. -/
def staleExcerptState : OrchState :=
  { ps := { pending_search := false, match_ranges := [], active_query := none
            search_id := 3, excerpts := [7] }
    task := none
    log := [] }

/-- A full run of generation 1 followed by generation 2 whose engine call
fails: issue, engine results, one delivery, completion, second issue,
failed engine call. -/
def engineErrorTrace : List Evt :=
  [Evt.issue demoQuery (some [(some 0, [4])]), Evt.engineArrive, Evt.deliver,
   Evt.complete, Evt.issue demoQueryB none, Evt.engineArrive]

/-- A view whose include and exclude lists are both invalid under
`sampleGlobCompiler`, with no errors flagged yet. -/
def bothGlobsInvalidView : ProjectSearchView :=
  { model := ProjectSearch.new
    query_editor := ['a']
    included_files_editor := "[a".toList
    excluded_files_editor := "[b".toList
    semantic := none
    search_options := { case_sensitive := false, whole_word := false, regex := false }
    panels_with_errors := ∅
    active_match_index := none
    search_id := 0
    results_selection := none
    cursor := 0 }

/-- A view with three strictly ordered matches and the middle one
active, for exercising match navigation. -/
def navDemoView : ProjectSearchView :=
  { model := { pending_search := false, match_ranges := [1, 3, 5]
               active_query := some demoQuery, search_id := 1, excerpts := [1, 3, 5] }
    query_editor := ['a']
    included_files_editor := []
    excluded_files_editor := []
    semantic := none
    search_options := { case_sensitive := false, whole_word := false, regex := false }
    panels_with_errors := ∅
    active_match_index := some 1
    search_id := 1
    results_selection := some 1
    cursor := 3 }

/-- A regex-mode view with valid glob lists, for the query-error
instances. -/
def regexDemoView : ProjectSearchView :=
  { model := { pending_search := false, match_ranges := [9], active_query := some demoQuery
               search_id := 2, excerpts := [9] }
    query_editor := "(unclosed".toList
    included_files_editor := "*.rs".toList
    excluded_files_editor := []
    semantic := none
    search_options := { case_sensitive := false, whole_word := false, regex := true }
    panels_with_errors := ∅
    active_match_index := none
    search_id := 2
    results_selection := none
    cursor := 0 }

/-- A semantic-mode view with indexing outstanding (3 of 5 files left). -/
def indexingDemoView : ProjectSearchView :=
  { model := { pending_search := false, match_ranges := [2], active_query := some demoQuery
               search_id := 4, excerpts := [2] }
    query_editor := ['a']
    included_files_editor := []
    excluded_files_editor := []
    semantic := some { file_count := 5, outstanding_file_count := 3 }
    search_options := { case_sensitive := false, whole_word := false, regex := false }
    panels_with_errors := ∅
    active_match_index := some 0
    search_id := 4
    results_selection := some 0
    cursor := 2 }


/-! ## C9 -/

/-- C9: in semantic mode with a positive outstanding file count,
invoking `ProjectSearchView::search` is a complete no-op: the view
(panels, generation, active match index) and the model (search_id,
match_ranges, active_query, excerpt set, pending flag) come back
unchanged and no task is spawned, so no engine call occurs. -/
theorem c9_semantic_indexing_gates_search :
    ∀ (cg : Str → Option GlobMatcher) (cr : Str → Bool)
      (tm : Option (List BufferMatches)) (sm : Option (List (Option Nat × Nat)))
      (v : ProjectSearchView) (sem : SemanticSearchState),
      v.semantic = some sem →
      0 < sem.outstanding_file_count →
      v.search cg cr tm sm = (v, none) := by
  intro cg cr tm sm v sem hsem hout
  unfold ProjectSearchView.search
  rw [hsem]
  simp [hout]

/-- Witness for C9 at a view with 3 of 5 files still to index. -/
theorem c9_witness :
    ProjectSearchView.search (fun s => some s) (fun _ => true) none none indexingDemoView
      = (indexingDemoView, none) :=
  c9_semantic_indexing_gates_search (fun s => some s) (fun _ => true) none none
    indexingDemoView { file_count := 5, outstanding_file_count := 3 } rfl (by decide)

/-! ## C6 -/

/-- C6: with the regex option enabled and both glob lists compiling, a
query text that fails regex compilation flags the `Query` panel and
yields no query, so `ProjectSearchView::search` dispatches nothing and
the model — previously active query, generation counter, accumulated
match ranges, excerpts — is unchanged; when the text compiles, the
`Query` flag is removed and the compiled regex query is returned. -/
theorem c6_invalid_regex_flags_query_only :
    ∀ (cg : Str → Option GlobMatcher) (cr : Str → Bool) (v : ProjectSearchView)
      (tm : Option (List BufferMatches)) (sm : Option (List (Option Nat × Nat)))
      (inc exc : List GlobMatcher),
      v.search_options.regex = true →
      load_glob_set cg v.included_files_editor = some inc →
      load_glob_set cg v.excluded_files_editor = some exc →
      (cr v.query_editor = false →
        v.build_search_query cg cr
          = (none,
             { v with panels_with_errors :=
                (insert InputPanel.Query
                  ((v.panels_with_errors.erase InputPanel.Include).erase InputPanel.Exclude)) })
        ∧ (v.semantic = none →
            v.search cg cr tm sm = ((v.build_search_query cg cr).2, none)
            ∧ ((v.search cg cr tm sm).1).model = v.model))
      ∧ (cr v.query_editor = true →
          v.build_search_query cg cr
            = (some (SearchQuery.regex v.query_editor v.search_options.whole_word
                v.search_options.case_sensitive inc exc),
               { v with panels_with_errors :=
                  (((v.panels_with_errors.erase InputPanel.Include).erase
                    InputPanel.Exclude).erase InputPanel.Query) })) := by
  intro cg cr v tm sm inc exc hrx hinc hexc
  constructor
  · intro hcr
    have hb : v.build_search_query cg cr
        = (none,
           { v with panels_with_errors :=
              (insert InputPanel.Query
                ((v.panels_with_errors.erase InputPanel.Include).erase InputPanel.Exclude)) }) := by
      unfold ProjectSearchView.build_search_query
      simp only [hinc, hexc, hrx, hcr, Bool.false_eq_true, if_true, if_false]
    refine ⟨hb, fun hsemn => ?_⟩
    have hs : v.search cg cr tm sm = ((v.build_search_query cg cr).2, none) := by
      unfold ProjectSearchView.search
      rw [hsemn, hb]
    refine ⟨hs, ?_⟩
    rw [hs, hb]
  · intro hcr
    unfold ProjectSearchView.build_search_query
    simp only [hinc, hexc, hrx, hcr, Bool.false_eq_true, if_true, if_false]

/-- Witness for C6 at the regex view with the unclosed-group query. -/
theorem c6_witness :
    ProjectSearchView.build_search_query sampleGlobCompiler (fun _ => false) regexDemoView
      = (none,
         { regexDemoView with panels_with_errors :=
            (insert InputPanel.Query
              ((regexDemoView.panels_with_errors.erase InputPanel.Include).erase
                InputPanel.Exclude)) }) :=
  ((c6_invalid_regex_flags_query_only sampleGlobCompiler (fun _ => false) regexDemoView
      none none ["*.rs".toList] [] rfl (by decide) (by decide)).1 rfl).1

/-! ## C8 -/

/-- C8 is false as stated: with both the include and the exclude lists
invalid, only the `Include` flag ends up set — the include failure
returns early, so the exclude list is never compiled and its flag never
updated, contradicting independent validation. -/
theorem c8_counterexample :
    load_glob_set sampleGlobCompiler bothGlobsInvalidView.excluded_files_editor = none
    ∧ (bothGlobsInvalidView.build_search_query sampleGlobCompiler
        (fun _ => true)).2.panels_with_errors = {InputPanel.Include}
    ∧ InputPanel.Exclude ∉
        (bothGlobsInvalidView.build_search_query sampleGlobCompiler
          (fun _ => true)).2.panels_with_errors :=
  ⟨by decide, by decide, by decide⟩

/-- C8 (amended): the include and exclude lists are validated
sequentially, not independently: an invalid include list flags `Include`
and returns early, leaving the exclude list uncompiled and its flag
untouched; with a valid include list, an invalid exclude list flags
`Exclude` (the `Include` flag having been cleared); each failure is
flagged against its own field, and validation never touches the model,
so a previously accepted query always survives.  The same holds for
`get_included_and_excluded_globsets`. -/
theorem c8_sequential_validation :
    ∀ (cg : Str → Option GlobMatcher) (cr : Str → Bool) (v : ProjectSearchView),
      (load_glob_set cg v.included_files_editor = none →
        v.build_search_query cg cr
          = (none,
             { v with panels_with_errors := (insert InputPanel.Include v.panels_with_errors) })
        ∧ v.get_included_and_excluded_globsets cg
          = (none,
             { v with panels_with_errors := (insert InputPanel.Include v.panels_with_errors) }))
      ∧ (∀ inc, load_glob_set cg v.included_files_editor = some inc →
          load_glob_set cg v.excluded_files_editor = none →
          v.build_search_query cg cr
            = (none,
               { v with panels_with_errors :=
                  (insert InputPanel.Exclude (v.panels_with_errors.erase InputPanel.Include)) })
          ∧ v.get_included_and_excluded_globsets cg
            = (none,
               { v with panels_with_errors :=
                  (insert InputPanel.Exclude (v.panels_with_errors.erase InputPanel.Include)) }))
      ∧ (v.build_search_query cg cr).2.model = v.model
      ∧ (v.get_included_and_excluded_globsets cg).2.model = v.model := by
  intro cg cr v
  refine ⟨fun hinc => ⟨?_, ?_⟩, fun inc hinc hexc => ⟨?_, ?_⟩, ?_, ?_⟩
  · unfold ProjectSearchView.build_search_query
    simp only [hinc]
  · unfold ProjectSearchView.get_included_and_excluded_globsets
    simp only [hinc]
  · unfold ProjectSearchView.build_search_query
    simp only [hinc, hexc]
  · unfold ProjectSearchView.get_included_and_excluded_globsets
    simp only [hinc, hexc]
  · unfold ProjectSearchView.build_search_query
    cases h1 : load_glob_set cg v.included_files_editor with
    | none => simp only [h1]
    | some inc =>
      simp only [h1]
      cases h2 : load_glob_set cg v.excluded_files_editor with
      | none => simp only [h2]
      | some exc =>
        simp only [h2]
        cases hrx : v.search_options.regex with
        | false => simp only [hrx, Bool.false_eq_true, if_false]
        | true =>
          simp only [hrx, if_true]
          cases hcr : cr v.query_editor with
          | false => simp only [hcr, Bool.false_eq_true, if_false]
          | true => simp only [hcr, if_true]
  · unfold ProjectSearchView.get_included_and_excluded_globsets
    cases h1 : load_glob_set cg v.included_files_editor with
    | none => simp only [h1]
    | some inc =>
      simp only [h1]
      cases h2 : load_glob_set cg v.excluded_files_editor with
      | none => simp only [h2]
      | some exc => simp only [h2]

/-- Witness for C8 at the doubly invalid view. -/
theorem c8_witness :
    bothGlobsInvalidView.build_search_query sampleGlobCompiler (fun _ => true)
      = (none,
         { bothGlobsInvalidView with panels_with_errors :=
            (insert InputPanel.Include bothGlobsInvalidView.panels_with_errors) })
    ∧ bothGlobsInvalidView.get_included_and_excluded_globsets sampleGlobCompiler
      = (none,
         { bothGlobsInvalidView with panels_with_errors :=
            (insert InputPanel.Include bothGlobsInvalidView.panels_with_errors) }) :=
  (c8_sequential_validation sampleGlobCompiler (fun _ => true) bothGlobsInvalidView).1
    (by decide)

end ZedProjectSearch

namespace ZedProjectSearch

/-! ## Helper lemmas -/

theorem collectSome_eq_none_iff (f : α → Option β) (l : List α) :
    collectSome f l = none ↔ ∃ a ∈ l, f a = none := by
  induction l with
  | nil => simp [collectSome]
  | cons a as ih =>
    simp only [collectSome]
    cases hfa : f a with
    | none => simp [hfa]
    | some b =>
      cases hrest : collectSome f as with
      | none =>
        simp only [List.exists_mem_cons_iff, hfa]
        simpa using ih.mp hrest
      | some bs =>
        have : ¬ ∃ x ∈ as, f x = none := fun h => by
          rw [ih.mpr h] at hrest; exact Option.noConfusion hrest
        simp [hfa, this]

theorem collectSome_eq_some (f : α → Option β) (l : List α) (bs : List β)
    (h : collectSome f l = some bs) :
    bs = l.filterMap f ∧ bs.length = l.length := by
  induction l generalizing bs with
  | nil => simp_all [collectSome]
  | cons a as ih =>
    simp only [collectSome] at h
    cases hfa : f a with
    | none => rw [hfa] at h; exact absurd h (by simp)
    | some b =>
      rw [hfa] at h
      cases hrest : collectSome f as with
      | none => rw [hrest] at h; exact absurd h (by simp)
      | some cs =>
        rw [hrest] at h
        obtain ⟨h1, h2⟩ := ih cs hrest
        cases h
        constructor
        · simp [List.filterMap_cons, hfa, h1]
        · simp [h2]

theorem keyLe_trans : ∀ a b c, keyLe a b = true → keyLe b c = true → keyLe a c = true := by
  intro a b c hab hbc
  cases a <;> cases b <;> cases c <;> simp_all [keyLe] <;> omega

theorem keyLe_total : ∀ a b, keyLe a b = true ∨ keyLe b a = true := by
  intro a b
  cases a <;> cases b <;> simp_all [keyLe] <;> omega

theorem keyLe_eq_false_ne : ∀ a b, keyLe a b = false → b ≠ a := by
  intro a b h
  cases a <;> cases b <;> simp_all [keyLe] <;> omega

theorem insortBy_perm (le : α → α → Bool) (a : α) :
    ∀ l : List α, List.Perm (insortBy le a l) (a :: l) := by
  intro l
  induction l with
  | nil => exact List.Perm.refl _
  | cons b bs ih =>
    by_cases h : le a b
    · simp [insortBy, h]
    · simp only [insortBy, h, if_neg, Bool.false_eq_true, not_false_eq_true, ite_false]
      exact (ih.cons b).trans (List.Perm.swap a b bs)

theorem insortBy_mem (le : α → α → Bool) (a : α) (l : List α) (x : α) :
    x ∈ insortBy le a l ↔ x = a ∨ x ∈ l := by
  rw [(insortBy_perm le a l).mem_iff]
  simp

theorem insortBy_pairwise (le : α → α → Bool)
    (htrans : ∀ a b c, le a b = true → le b c = true → le a c = true)
    (htotal : ∀ a b, le a b = true ∨ le b a = true) (a : α) :
    ∀ l : List α, List.Pairwise (fun x y => le x y = true) l →
      List.Pairwise (fun x y => le x y = true) (insortBy le a l) := by
  intro l
  induction l with
  | nil => intro _; simp [insortBy]
  | cons b bs ih =>
    intro h
    rw [List.pairwise_cons] at h
    obtain ⟨hb, hbs⟩ := h
    by_cases hab : le a b
    · simp only [insortBy, hab, if_pos]
      rw [List.pairwise_cons]
      refine ⟨?_, List.pairwise_cons.mpr ⟨hb, hbs⟩⟩
      intro x hx
      rw [List.mem_cons] at hx
      rcases hx with rfl | hx
      · exact hab
      · exact htrans a b x hab (hb x hx)
    · simp only [insortBy, hab, Bool.false_eq_true, not_false_eq_true, if_neg, ite_false]
      rw [List.pairwise_cons]
      refine ⟨?_, ih hbs⟩
      intro x hx
      rw [insortBy_mem] at hx
      rcases hx with hxa | hx
      · rcases htotal a b with h1 | h1
        · exact absurd h1 (by simpa using hab)
        · rw [hxa]; exact h1
      · exact hb x hx

theorem sortStable_pairwise (le : α → α → Bool)
    (htrans : ∀ a b c, le a b = true → le b c = true → le a c = true)
    (htotal : ∀ a b, le a b = true ∨ le b a = true) :
    ∀ l : List α, List.Pairwise (fun x y => le x y = true) (sortStable le l) := by
  intro l
  induction l with
  | nil => simp [sortStable]
  | cons x xs ih => exact insortBy_pairwise le htrans htotal x _ ih

theorem filter_insortBy_of_neg (le : α → α → Bool) (q : α → Bool) (a : α)
    (hqa : q a = false) :
    ∀ l : List α, (insortBy le a l).filter q = l.filter q := by
  intro l
  induction l with
  | nil => simp [insortBy, hqa]
  | cons b bs ih =>
    by_cases h : le a b
    · simp [insortBy, h, List.filter_cons, hqa]
    · simp only [insortBy, h, Bool.false_eq_true, not_false_eq_true, if_neg, ite_false]
      rw [List.filter_cons, List.filter_cons, ih]

theorem filter_insortBy_of_pos (le : α → α → Bool) (q : α → Bool) (a : α)
    (hqa : q a = true) (hblock : ∀ b, le a b = false → q b = false) :
    ∀ l : List α, (insortBy le a l).filter q = a :: l.filter q := by
  intro l
  induction l with
  | nil => simp [insortBy, hqa]
  | cons b bs ih =>
    by_cases h : le a b
    · simp [insortBy, h, List.filter_cons, hqa]
    · have hqb : q b = false := hblock b (by simpa using h)
      simp only [insortBy, h, Bool.false_eq_true, not_false_eq_true, if_neg, ite_false]
      simp [List.filter_cons, hqb, ih]

theorem sort_by_path_stable_filter (p : Option Nat) :
    ∀ ms : List BufferMatches,
      (sort_by_path ms).filter (fun g => decide (g.1 = p))
        = ms.filter (fun g => decide (g.1 = p)) := by
  intro ms
  induction ms with
  | nil => rfl
  | cons x xs ih =>
    have ih2 : (sortStable (fun a b => keyLe a.1 b.1) xs).filter (fun g => decide (g.1 = p))
        = xs.filter (fun g => decide (g.1 = p)) := ih
    show (insortBy _ x (sortStable _ xs)).filter _ = _
    by_cases hx : x.1 = p
    · rw [filter_insortBy_of_pos _ _ x (by simp [hx]) ?_, ih2, List.filter_cons,
        if_pos (by simp [hx])]
      intro b hb
      have hne := keyLe_eq_false_ne x.1 b.1 hb
      simp only [decide_eq_false_iff_not]
      rw [hx] at hne
      exact hne
    · rw [filter_insortBy_of_neg _ _ x (by simp [hx]), ih2, List.filter_cons,
        if_neg (by simp [hx])]

theorem runTrace_append (es1 : List Evt) :
    ∀ (es2 : List Evt) (s : OrchState),
      runTrace s (es1 ++ es2)
        = (runTrace s es1).bind (fun s1 => runTrace s1 es2) := by
  induction es1 with
  | nil => intro es2 s; rfl
  | cons e es ih =>
    intro es2 s
    simp only [List.cons_append, runTrace]
    cases stepFn s e with
    | none => rfl
    | some s1 => exact ih es2 s1

theorem runTrace_deliver_queue :
    ∀ (q : List Nat) (ps : ProjectSearch) (g : Nat) (log : List (Nat × Nat)),
      runTrace { ps := ps, task := some { gen := g, phase := .streaming q }, log := log }
          (List.replicate q.length Evt.deliver)
        = some { ps := { ps with match_ranges := ps.match_ranges ++ q
                                 excerpts := ps.excerpts ++ q }
                 task := some { gen := g, phase := .streaming [] }
                 log := log ++ q.map (fun r => (g, r)) } := by
  intro q
  induction q with
  | nil => intro ps g log; simp [runTrace]
  | cons r rest ih =>
    intro ps g log
    rw [List.length_cons, List.replicate_succ]
    have hstep : stepFn
        { ps := ps
          task := some { gen := g, phase := .streaming (r :: rest) }
          log := log } Evt.deliver
        = some { ps := { ps with match_ranges := ps.match_ranges ++ [r]
                                 excerpts := ps.excerpts ++ [r] }
                 task := some { gen := g, phase := .streaming rest }
                 log := log ++ [(g, r)] } := rfl
    simp only [runTrace, hstep]
    rw [ih]
    simp [List.append_assoc]

theorem sortStable_perm (le : α → α → Bool) :
    ∀ l : List α, List.Perm (sortStable le l) l := by
  intro l
  induction l with
  | nil => exact List.Perm.refl _
  | cons x xs ih => exact (insortBy_perm le x (sortStable le xs)).trans (ih.cons x)

/-! ## C3 -/

/-- C3 is false as stated: the code sorts the raw results by document
path only (`sort_by_key` whose key is just the path), never by position
within a document.  A single buffer whose engine-given positions arrive
as 5, 2 is left unsorted by the sort actually performed, so the sequence
forwarded to excerpt streaming is not in (path, position) order. -/
theorem c3_counterexample :
    flattenMatches (sort_by_path [(some 0, [5, 2])]) = [(some 0, 5), (some 0, 2)]
    ∧ sortedByPathPos (flattenMatches (sort_by_path [(some 0, [5, 2])])) = false :=
  ⟨by decide, by decide⟩

/-- C3 (amended): when raw results arrive in `ProjectSearch::search`,
the matches are sorted stably by document path only — positions within a
document keep the order the engine produced — and within that generation
the excerpt stream appends to the result set exactly the flattening of
that path-sorted sequence: the resulting list is path-ordered (pairwise),
a permutation of the input groups, stable per path, and a full drain of
the stream leaves `match_ranges` and the excerpt set equal to the
flattened path-sorted sequence, appended in that order. -/
theorem c3_sort_by_path_and_append_order :
    ∀ (ms : List BufferMatches) (ps : ProjectSearch) (g : Nat) (log : List (Nat × Nat)),
      List.Pairwise (fun a b => keyLe a.1 b.1 = true) (sort_by_path ms)
      ∧ List.Perm (sort_by_path ms) ms
      ∧ (∀ p, (sort_by_path ms).filter (fun gr => decide (gr.1 = p))
          = ms.filter (fun gr => decide (gr.1 = p)))
      ∧ runTrace
          { ps := ps
            task := some { gen := g, phase := .awaitingText (some ms) }
            log := log }
          (Evt.engineArrive ::
            (List.replicate (streamExcerpts (sort_by_path ms)).length Evt.deliver
              ++ [Evt.complete]))
        = some { ps := { ps with pending_search := false
                                 match_ranges := streamExcerpts (sort_by_path ms)
                                 excerpts := streamExcerpts (sort_by_path ms) }
                 task := none
                 log := log ++ (streamExcerpts (sort_by_path ms)).map (fun r => (g, r)) } := by
  intro ms ps g log
  refine ⟨sortStable_pairwise _ (fun a b c => keyLe_trans a.1 b.1 c.1)
      (fun a b => keyLe_total a.1 b.1) ms,
    sortStable_perm _ ms,
    fun p => sort_by_path_stable_filter p ms, ?_⟩
  have hArr : stepFn
      { ps := ps
        task := some { gen := g, phase := .awaitingText (some ms) }
        log := log } Evt.engineArrive
      = some { ps := { ps with match_ranges := [], excerpts := [] }
               task := some { gen := g, phase := .streaming (streamExcerpts (sort_by_path ms)) }
               log := log } := rfl
  simp only [runTrace, hArr]
  rw [runTrace_append, runTrace_deliver_queue]
  simp [runTrace, stepFn]

theorem stepFn_facts (s s1 : OrchState) (e : Evt)
    (hstep : stepFn s e = some s1)
    (hinv : ∀ t, s.task = some t → t.gen = s.ps.search_id) :
    (∀ t, s1.task = some t → t.gen = s1.ps.search_id)
    ∧ s.ps.search_id ≤ s1.ps.search_id
    ∧ (s1.log = s.log ∨ ∃ r, s1.log = s.log ++ [(s.ps.search_id, r)]) := by
  obtain ⟨ps, task, log⟩ := s
  cases e with
  | issue q engine =>
    injection hstep with h
    subst h
    exact ⟨fun t ht => by injection ht with h2; rw [← h2], by simp, Or.inl rfl⟩
  | issueSemantic qt engine =>
    injection hstep with h
    subst h
    exact ⟨fun t ht => by injection ht with h2; rw [← h2], by simp, Or.inl rfl⟩
  | engineArrive =>
    cases task with
    | none => exact absurd hstep (by simp [stepFn])
    | some t0 =>
      obtain ⟨g, ph⟩ := t0
      have hg : g = ps.search_id := by
        have := hinv { gen := g, phase := ph } rfl
        simpa using this
      cases ph with
      | awaitingText res =>
        cases res with
        | none =>
          injection hstep with h
          subst h
          exact ⟨fun t ht => Option.noConfusion ht, Nat.le_refl _, Or.inl rfl⟩
        | some ms =>
          injection hstep with h
          subst h
          exact ⟨fun t ht => by injection ht with h2; rw [← h2]; exact hg,
            Nat.le_refl _, Or.inl rfl⟩
      | awaitingSemantic res =>
        cases res with
        | none =>
          injection hstep with h
          subst h
          exact ⟨fun t ht => Option.noConfusion ht, Nat.le_refl _, Or.inl rfl⟩
        | some results =>
          injection hstep with h
          subst h
          exact ⟨fun t ht => by injection ht with h2; rw [← h2]; exact hg,
            Nat.le_refl _, Or.inl rfl⟩
      | streaming queue =>
        exact absurd hstep (by simp [stepFn])
  | deliver =>
    cases task with
    | none => exact absurd hstep (by simp [stepFn])
    | some t0 =>
      obtain ⟨g, ph⟩ := t0
      have hg : g = ps.search_id := by
        have := hinv { gen := g, phase := ph } rfl
        simpa using this
      cases ph with
      | awaitingText res => exact absurd hstep (by simp [stepFn])
      | awaitingSemantic res => exact absurd hstep (by simp [stepFn])
      | streaming queue =>
        cases queue with
        | nil => exact absurd hstep (by simp [stepFn])
        | cons r rest =>
          injection hstep with h
          subst h
          refine ⟨fun t ht => by injection ht with h2; rw [← h2]; exact hg,
            Nat.le_refl _, Or.inr ⟨r, ?_⟩⟩
          rw [hg]
  | complete =>
    cases task with
    | none => exact absurd hstep (by simp [stepFn])
    | some t0 =>
      obtain ⟨g, ph⟩ := t0
      cases ph with
      | awaitingText res => exact absurd hstep (by simp [stepFn])
      | awaitingSemantic res => exact absurd hstep (by simp [stepFn])
      | streaming queue =>
        cases queue with
        | nil =>
          injection hstep with h
          subst h
          exact ⟨fun t ht => Option.noConfusion ht, Nat.le_refl _, Or.inl rfl⟩
        | cons r rest => exact absurd hstep (by simp [stepFn])

theorem runTrace_facts (evts : List Evt) :
    ∀ (s s1 : OrchState),
      runTrace s evts = some s1 →
      (∀ t, s.task = some t → t.gen = s.ps.search_id) →
      (∀ t, s1.task = some t → t.gen = s1.ps.search_id)
      ∧ s.ps.search_id ≤ s1.ps.search_id
      ∧ ∃ suf, s1.log = s.log ++ suf ∧ ∀ p ∈ suf, s.ps.search_id ≤ p.1 := by
  induction evts with
  | nil =>
    intro s s1 h hinv
    injection h with h
    subst h
    exact ⟨hinv, Nat.le_refl _, [], by simp, by simp⟩
  | cons e es ih =>
    intro s s1 h hinv
    rw [runTrace] at h
    cases hse : stepFn s e with
    | none => rw [hse] at h; exact absurd h (by simp)
    | some s2 =>
      rw [hse] at h
      obtain ⟨hinv2, hmono2, hlog2⟩ := stepFn_facts s s2 e hse hinv
      obtain ⟨hinv3, hmono3, suf, hsuf, hall⟩ := ih s2 s1 h hinv2
      refine ⟨hinv3, Nat.le_trans hmono2 hmono3, ?_⟩
      rcases hlog2 with h2 | ⟨r, h2⟩
      · exact ⟨suf, by rw [hsuf, h2],
          fun p hp => Nat.le_trans hmono2 (hall p hp)⟩
      · refine ⟨(s.ps.search_id, r) :: suf, ?_, ?_⟩
        · rw [hsuf, h2]; simp
        · intro p hp
          rw [List.mem_cons] at hp
          rcases hp with rfl | hp
          · exact Nat.le_refl _
          · exact Nat.le_trans hmono2 (hall p hp)

/-! ## C1 -/

/-- C1: if a new search generation is issued (text or semantic) while an
older generation still has a task in flight, every append to
`match_ranges` / the excerpt set recorded after the new issuance carries
a generation strictly greater than the superseded task's generation: the
older task appends nothing from then on (its task was cancelled by being
dropped when `pending_search` was replaced), so the visible result state
reflects only newer generations. -/
theorem c1_stale_generation_never_appends :
    ∀ (pre post : List Evt) (e : Evt) (s1 s2 s3 : OrchState) (t : PendingTask),
      runTrace initState pre = some s1 →
      s1.task = some t →
      e.isIssue = true →
      stepFn s1 e = some s2 →
      runTrace s2 post = some s3 →
      ∃ suf, s3.log = s2.log ++ suf ∧ ∀ p ∈ suf, t.gen < p.1 := by
  intro pre post e s1 s2 s3 t hpre htask hiss hstep hpost
  have h1 := runTrace_facts pre initState s1 hpre (fun t' ht' => Option.noConfusion ht')
  have hgen : t.gen = s1.ps.search_id := h1.1 t htask
  have hs2 : s2.ps.search_id = s1.ps.search_id + 1 := by
    obtain ⟨ps, task, log⟩ := s1
    cases e with
    | issue q engine => injection hstep with h; rw [← h]
    | issueSemantic qt engine => injection hstep with h; rw [← h]
    | engineArrive => exact absurd hiss (by simp [Evt.isIssue])
    | deliver => exact absurd hiss (by simp [Evt.isIssue])
    | complete => exact absurd hiss (by simp [Evt.isIssue])
  have hinv2 := (stepFn_facts s1 s2 e hstep h1.1).1
  obtain ⟨_, _, suf, hsuf, hall⟩ := runTrace_facts post s2 s3 hpost hinv2
  refine ⟨suf, hsuf, fun p hp => ?_⟩
  have := hall p hp
  omega

/-- Witness for C1: a concrete run where generation 1 is still awaiting
its engine results when generation 2 is issued; the remainder of the run
(generation 2 failing at the engine) appends nothing of generation 1. -/
theorem c1_witness :
    ∃ suf,
      (OrchState.log
        { ps := { pending_search := true, match_ranges := [], active_query := some demoQueryB
                  search_id := 2, excerpts := [] }
          task := some { gen := 2, phase := .awaitingText none }
          log := [] })
        = (OrchState.log
            { ps := { pending_search := true, match_ranges := [], active_query := some demoQueryB
                      search_id := 2, excerpts := [] }
              task := some { gen := 2, phase := .awaitingText none }
              log := [] }) ++ suf
      ∧ ∀ p ∈ suf, 1 < Prod.fst p := by
  have h := c1_stale_generation_never_appends
    [Evt.issue demoQuery (some [(some 0, [1])])]
    [Evt.engineArrive]
    (Evt.issue demoQueryB none)
    { ps := { pending_search := true, match_ranges := [], active_query := some demoQuery
              search_id := 1, excerpts := [] }
      task := some { gen := 1, phase := .awaitingText (some [(some 0, [1])]) }
      log := [] }
    { ps := { pending_search := true, match_ranges := [], active_query := some demoQueryB
              search_id := 2, excerpts := [] }
      task := some { gen := 2, phase := .awaitingText none }
      log := [] }
    { ps := { pending_search := true, match_ranges := [], active_query := some demoQueryB
              search_id := 2, excerpts := [] }
      task := none
      log := [] }
    { gen := 1, phase := .awaitingText (some [(some 0, [1])]) }
    (by decide) (by decide) (by decide) (by decide) (by decide)
  obtain ⟨suf, hsuf, hall⟩ := h
  exact ⟨suf, by simpa using hsuf, hall⟩

/-! ## C2 -/

/-- C2 is false as stated: issuing a search does not clear the excerpt
set synchronously.  From a state with excerpt 7 already materialised, the
synchronous part of an issuance leaves the excerpt set untouched (it is
cleared only inside the spawned task, after the engine responds). -/
theorem c2_counterexample :
    (stepFn staleExcerptState (Evt.issue demoQuery none)).map (fun s => s.ps.excerpts)
      = some [7]
    ∧ ([7] : List Nat) ≠ [] :=
  ⟨rfl, by decide⟩

/-- C2 (amended): every issuance synchronously increments `search_id` by
exactly one, clears `match_ranges`, and replaces the pending task; the
text/regex path also records the issued query as `active_query`, while
`semantic_search` leaves `active_query` unchanged.  The excerpt set is
not cleared synchronously: it is cleared inside the spawned task, when
the engine results arrive. -/
theorem c2_issue_synchronous_effects :
    ∀ (s : OrchState) (q : SearchQuery) (qt : Str)
      (tm : Option (List BufferMatches)) (sm : Option (List (Option Nat × Nat)))
      (ps : ProjectSearch) (g : Nat) (ms : List BufferMatches) (log : List (Nat × Nat)),
      stepFn s (Evt.issue q tm)
        = some { ps := { pending_search := true, match_ranges := [], active_query := some q
                         search_id := s.ps.search_id + 1, excerpts := s.ps.excerpts }
                 task := some { gen := s.ps.search_id + 1, phase := .awaitingText tm }
                 log := s.log }
      ∧ stepFn s (Evt.issueSemantic qt sm)
        = some { ps := { pending_search := true, match_ranges := []
                         active_query := s.ps.active_query
                         search_id := s.ps.search_id + 1, excerpts := s.ps.excerpts }
                 task := some { gen := s.ps.search_id + 1, phase := .awaitingSemantic sm }
                 log := s.log }
      ∧ stepFn { ps := ps, task := some { gen := g, phase := .awaitingText (some ms) }, log := log }
          Evt.engineArrive
        = some { ps := { ps with match_ranges := [], excerpts := [] }
                 task := some { gen := g
                                phase := .streaming (streamExcerpts (sort_by_path ms)) }
                 log := log } :=
  fun _ _ _ _ _ _ _ _ _ => ⟨rfl, rfl, rfl⟩

/-! ## C5 -/

/-- C5 is false as stated: after generation 1 completes with excerpt 4
materialised and generation 2 fails at the engine, the model still
reports a pending search — the early return on `log_err()?` skips the
cleanup that clears `pending_search` — and the excerpt set still holds
the previous generation's excerpt instead of being empty. -/
theorem c5_counterexample :
    (runTrace initState engineErrorTrace).map
        (fun s => (s.ps.pending_search, s.ps.excerpts, s.ps.match_ranges))
      = some (true, [4], [])
    ∧ ([4] : List Nat) ≠ [] :=
  ⟨rfl, by decide⟩

/-- C5 (amended): when the engine call itself fails, the spawned task
logs the error and returns early.  The live task is gone, but
`pending_search` is NOT cleared (so the model keeps reporting a search in
flight until another search is issued), `match_ranges` stays as issuance
left it (empty), and the excerpt set keeps whatever was last
materialised, since issuance does not clear it. -/
theorem c5_engine_error_leaves_state :
    ∀ (ps : ProjectSearch) (g : Nat) (log : List (Nat × Nat)),
      stepFn { ps := ps, task := some { gen := g, phase := .awaitingText none }, log := log }
          Evt.engineArrive
        = some { ps := ps, task := none, log := log }
      ∧ stepFn { ps := ps, task := some { gen := g, phase := .awaitingSemantic none }, log := log }
          Evt.engineArrive
        = some { ps := ps, task := none, log := log } :=
  fun _ _ _ => ⟨rfl, rfl⟩

/-! ## C7 -/

/-- C7: glob list compilation splits its input on commas, trims
whitespace, ignores empty segments, and compiles each remaining segment;
it returns the complete list of compiled matchers, or fails as a whole
when any segment fails to compile, with no partial list.  Concretely,
under a compiler rejecting the unclosed class, the text consisting of
asterisk-dot-rs and an unclosed class fails entirely, the text with two
valid patterns yields exactly those two matchers, and an all-whitespace
input yields the empty list. -/
theorem c7_load_glob_set_all_or_nothing :
    ∀ (cg : Str → Option GlobMatcher) (text : Str),
      (load_glob_set cg text = none ↔ ∃ s ∈ globSegments text, cg s = none)
      ∧ (∀ ls, load_glob_set cg text = some ls →
          ls = (globSegments text).filterMap cg
          ∧ ls.length = (globSegments text).length)
      ∧ load_glob_set sampleGlobCompiler ("*.rs, [invalid".toList) = none
      ∧ load_glob_set sampleGlobCompiler ("*.rs, *.toml".toList)
          = some ["*.rs".toList, "*.toml".toList]
      ∧ load_glob_set sampleGlobCompiler ("   ".toList) = some [] := by
  intro cg text
  refine ⟨collectSome_eq_none_iff cg (globSegments text),
    fun ls h => collectSome_eq_some cg (globSegments text) ls h,
    by decide, by decide, by decide⟩

/-- Witness for C7 at the two-pattern input. -/
theorem c7_witness :
    ["*.rs".toList, "*.toml".toList]
        = (globSegments ("*.rs, *.toml".toList)).filterMap sampleGlobCompiler
      ∧ (["*.rs".toList, "*.toml".toList] : List GlobMatcher).length
        = (globSegments ("*.rs, *.toml".toList)).length :=
  (c7_load_glob_set_all_or_nothing sampleGlobCompiler ("*.rs, *.toml".toList)).2.1
    ["*.rs".toList, "*.toml".toList] (by decide)


/-! ## C4 -/

theorem findIdx_sorted_at :
    ∀ (l : List Nat) (c : Nat), List.Pairwise (· < ·) l →
      ∀ k, k < l.length → l.getD k 0 = c →
        ∀ i, List.findIdx? (fun m => c ≤ m) l i = some (i + k) := by
  intro l
  induction l with
  | nil => intro c _ k hk; simp at hk
  | cons x xs ih =>
    intro c hp k hk hc i
    rw [List.findIdx?_cons]
    cases k with
    | zero =>
      rw [List.getD_cons_zero] at hc
      subst hc
      simp
    | succ j =>
      rw [List.getD_cons_succ] at hc
      have hj : j < xs.length := by simpa using hk
      have hmem : xs.getD j 0 ∈ xs := by
        rw [List.getD_eq_getElem xs 0 hj]
        exact List.getElem_mem hj
      have hxc : x < c := by
        rw [← hc]
        exact (List.pairwise_cons.mp hp).1 _ hmem
      have hdx : decide (c ≤ x) = false := by
        simp only [decide_eq_false_iff_not]
        omega
      rw [hdx]
      simp only [Bool.false_eq_true, if_false]
      rw [ih c (List.pairwise_cons.mp hp).2 j hj hc (i + 1)]
      congr 1
      omega

theorem active_match_index_at (l : List Nat) (hp : List.Pairwise (· < ·) l)
    (k : Nat) (hk : k < l.length) :
    active_match_index_impl l (l.getD k 0) = some k := by
  unfold active_match_index_impl
  have hne : l.isEmpty = false := by
    cases l
    · simp at hk
    · rfl
  rw [hne]
  simp only [Bool.false_eq_true, if_false]
  rw [findIdx_sorted_at l (l.getD k 0) hp k hk rfl 0]
  simp

theorem select_match_some_eq (v : ProjectSearchView) (i : Nat)
    (hai : v.active_match_index = some i) (d : Direction) :
    v.select_match d
      = { v with
          results_selection :=
            some (match_index_for_direction v.model.match_ranges.length i d)
          cursor := v.model.match_ranges.getD
            (match_index_for_direction v.model.match_ranges.length i d) 0 } := by
  unfold ProjectSearchView.select_match
  rw [hai]

theorem select_match_cycle_some_eq (v : ProjectSearchView) (i : Nat)
    (hai : v.active_match_index = some i) (d : Direction) :
    v.select_match_cycle d = (v.select_match d).update_match_index := by
  unfold ProjectSearchView.select_match_cycle
  rw [hai]

/-- C4: with n matches and active index i < n, `select_match` moves the
selection to `(i + 1) mod n` for Next and `(i - 1 + n) mod n` for Prev —
so the recomputed active index (via the selection-changed
`update_match_index`) is exactly that index, and prev after next is the
identity on every in-range index; with no active index (empty match
list), `select_match` is a silent no-op. -/
theorem c4_select_match_navigation :
    ∀ (v : ProjectSearchView) (i : Nat),
      v.active_match_index = some i →
      i < v.model.match_ranges.length →
      List.Pairwise (· < ·) v.model.match_ranges →
      ((v.select_match_cycle Direction.next).active_match_index
          = some ((i + 1) % v.model.match_ranges.length)
        ∧ (v.select_match_cycle Direction.prev).active_match_index
          = some ((i + v.model.match_ranges.length - 1) % v.model.match_ranges.length)
        ∧ (v.select_match Direction.next).results_selection
          = some ((i + 1) % v.model.match_ranges.length)
        ∧ (v.select_match Direction.prev).results_selection
          = some ((i + v.model.match_ranges.length - 1) % v.model.match_ranges.length))
      ∧ (∀ n j, j < n →
          match_index_for_direction n (match_index_for_direction n j Direction.next)
            Direction.prev = j)
      ∧ (∀ (w : ProjectSearchView) (d : Direction),
          w.active_match_index = none →
          w.select_match d = w ∧ w.select_match_cycle d = w) := by
  intro v i hai hlt hp
  have hn : 0 < v.model.match_ranges.length := Nat.lt_of_le_of_lt (Nat.zero_le i) hlt
  refine ⟨⟨?_, ?_, ?_, ?_⟩, ?_, ?_⟩
  · rw [select_match_cycle_some_eq v i hai, select_match_some_eq v i hai]
    unfold ProjectSearchView.update_match_index
    exact active_match_index_at _ hp _ (Nat.mod_lt _ hn)
  · rw [select_match_cycle_some_eq v i hai, select_match_some_eq v i hai]
    unfold ProjectSearchView.update_match_index
    exact active_match_index_at _ hp _ (Nat.mod_lt _ hn)
  · rw [select_match_some_eq v i hai]
    rfl
  · rw [select_match_some_eq v i hai]
    rfl
  · intro n j hj
    show ((j + 1) % n + n - 1) % n = j
    rcases Nat.lt_or_ge (j + 1) n with h1 | h1
    · rw [Nat.mod_eq_of_lt h1]
      have h2 : j + 1 + n - 1 = j + n := by omega
      rw [h2, Nat.add_mod_right]
      exact Nat.mod_eq_of_lt (by omega)
    · have h2 : j + 1 = n := by omega
      rw [h2, Nat.mod_self]
      have h3 : 0 + n - 1 = n - 1 := by omega
      rw [h3, Nat.mod_eq_of_lt (by omega)]
      omega
  · intro w d hw
    constructor
    · unfold ProjectSearchView.select_match
      rw [hw]
    · unfold ProjectSearchView.select_match_cycle
      rw [hw]

/-- Witness for C4 at a view with matches 1, 3, 5 and active index 1. -/
theorem c4_witness :
    (navDemoView.select_match_cycle Direction.next).active_match_index = some 2
    ∧ (navDemoView.select_match_cycle Direction.prev).active_match_index = some 0 := by
  have h := c4_select_match_navigation navDemoView 1 rfl (by decide) (by decide)
  exact ⟨h.1.1, h.1.2.1⟩

/-! ## C10 -/

theorem model_changed_spec (v : ProjectSearchView) :
    ((v.model_changed).2 = true
        ↔ (v.model.match_ranges ≠ [] ∧ v.model.search_id ≠ v.search_id))
    ∧ (v.model_changed).1.model = v.model
    ∧ ((v.model_changed).2 = false →
        (v.model_changed).1.results_selection = v.results_selection
        ∧ (v.model_changed).1.cursor = v.cursor)
    ∧ ((v.model_changed).2 = true → (v.model_changed).1.results_selection = some 0)
    ∧ (v.model.match_ranges = [] → (v.model_changed).1.search_id = v.search_id)
    ∧ (v.model.match_ranges ≠ [] → (v.model_changed).1.search_id = v.model.search_id) := by
  unfold ProjectSearchView.model_changed ProjectSearchView.update_match_index
  by_cases h : v.model.match_ranges.isEmpty
  · have h2 : v.model.match_ranges = [] := List.isEmpty_iff.mp h
    simp [h, h2]
  · have h2 : v.model.match_ranges ≠ [] := by
      intro hn
      rw [hn] at h
      exact h rfl
    cases hd : decide (v.model.search_id ≠ v.search_id) with
    | false =>
      have hne : ¬ v.model.search_id ≠ v.search_id := of_decide_eq_false hd
      simp [h, hd, h2, hne]
    | true =>
      have hne : v.model.search_id ≠ v.search_id := of_decide_eq_true hd
      simp [h, hd, h2, hne]

theorem model_changed_run_le_aux (us : List (List Nat)) :
    ∀ v : ProjectSearchView,
      (model_changed_run v us).2 ≤ (if v.search_id = v.model.search_id then 0 else 1) := by
  induction us with
  | nil =>
    intro v
    show 0 ≤ _
    exact Nat.zero_le _
  | cons u us ih =>
    intro v
    have hgoal : (model_changed_run v (u :: us)).2
        = (if (({ v with model := { v.model with match_ranges := u } } :
              ProjectSearchView).model_changed).2 then 1 else 0)
          + (model_changed_run (({ v with model := { v.model with match_ranges := u } } :
              ProjectSearchView).model_changed).1 us).2 := rfl
    rw [hgoal]
    set vNext : ProjectSearchView :=
      { v with model := { v.model with match_ranges := u } } with hvn
    have hmodel : vNext.model.search_id = v.model.search_id := rfl
    have hsid : vNext.search_id = v.search_id := rfl
    obtain ⟨hiff, hmdl, _hsel, _hsel0, hempty, hnonempty⟩ := model_changed_spec vNext
    have hrest := ih (vNext.model_changed).1
    cases hmv : (vNext.model_changed).2 with
    | false =>
      simp only [Bool.false_eq_true, if_false, Nat.zero_add]
      refine Nat.le_trans hrest ?_
      by_cases heq : v.search_id = v.model.search_id
      · have hafter : (vNext.model_changed).1.search_id
            = ((vNext.model_changed).1).model.search_id := by
          rw [hmdl]
          by_cases hu : vNext.model.match_ranges = []
          · rw [hempty hu, hsid, heq, hmodel]
          · rw [hnonempty hu]
        simp [hafter, heq]
      · simp only [heq, if_neg, not_false_eq_true]
        split
        · exact Nat.zero_le 1
        · exact Nat.le_refl 1
    | true =>
      rw [if_pos rfl]
      have hmoved := hiff.mp hmv
      have hneq : ¬ v.search_id = v.model.search_id := by
        intro heq
        exact hmoved.2 (by rw [← hsid, ← hmodel] at heq; exact heq.symm)
      have hafter : (vNext.model_changed).1.search_id
          = ((vNext.model_changed).1).model.search_id := by
        rw [hmdl, hnonempty hmoved.1]
      have hrest0 : (model_changed_run (vNext.model_changed).1 us).2 ≤ 0 := by
        refine Nat.le_trans hrest ?_
        simp [hafter]
      simp only [if_neg hneq]
      omega

/-- C10: within a single search generation the results-editor selection
jumps to the first match at most once: `model_changed` moves the
selection (to the first match range) exactly when the match list is
non-empty and the view's recorded generation differs from the model's;
when it does not move, the selection and cursor are untouched; and over
any sequence of `model_changed` notifications within one generation the
selection moves at most once. -/
theorem c10_selection_jump_once_per_generation :
    ∀ (v : ProjectSearchView),
      ((v.model_changed).2 = true
          ↔ (v.model.match_ranges ≠ [] ∧ v.model.search_id ≠ v.search_id))
      ∧ ((v.model_changed).2 = true → (v.model_changed).1.results_selection = some 0)
      ∧ ((v.model_changed).2 = false →
          (v.model_changed).1.results_selection = v.results_selection
          ∧ (v.model_changed).1.cursor = v.cursor)
      ∧ (∀ updates, (model_changed_run v updates).2 ≤ 1) := by
  intro v
  obtain ⟨hiff, _hmdl, hsel, hsel0, _, _⟩ := model_changed_spec v
  refine ⟨hiff, hsel0, hsel, fun updates => ?_⟩
  refine Nat.le_trans (model_changed_run_le_aux updates v) ?_
  split
  · exact Nat.zero_le 1
  · exact Nat.le_refl 1

/-- Witness for C10: at a view already on the model generation with
matches present, `model_changed` does not move the selection, and a
two-update run within the generation moves it at most once. -/
theorem c10_witness :
    ((navDemoView.model_changed).1.results_selection = navDemoView.results_selection
      ∧ (navDemoView.model_changed).1.cursor = navDemoView.cursor)
    ∧ (model_changed_run navDemoView [[1, 3], [1, 3, 5]]).2 ≤ 1 :=
  ⟨(c10_selection_jump_once_per_generation navDemoView).2.2.1 (by decide),
   (c10_selection_jump_once_per_generation navDemoView).2.2.2 [[1, 3], [1, 3, 5]]⟩

end ZedProjectSearch
